import Mathlib

/-!
Verification of the item-matching subsystem of the lost_n_found backend
(`src/backend/index.js`).  The development shallowly embeds:

* the JSON value model and the `findNumericArray` bounded-depth breadth-first
  search used to extract an embedding vector from the Vertex AI response;
* `generateEmbedding` (provider interaction abstracted as the optional JSON
  response body: `none` models a request error caught by the `try/catch`);
* `createItemPost`, the item-creation handler (uploads and Firestore writes
  are external collaborators; the constructed document is returned);
* `cosineSimilarity` and the `GET /api/items/:itemId/matches` route
  (`findMatches`), over real-number vectors.

JS-specific conventions used throughout the embedding:
* a missing/empty string field is modelled as `""` (both are falsy in JS and
  the code only tests truthiness of these fields);
* JS `null` for the stored vector is `Option.none`, the empty array is
  `some []`;
* JS object spread `{id, score, ...targetItem}` overrides the computed `id`
  and `score` keys exactly when the stored document itself carries fields
  with those names; the stored document is modelled with the fields the
  route reads plus those two optional carry-through fields.
-/

namespace LostFound

/-- A parsed JSON value.  Numeric leaves are rationals (JSON numbers). -/
inductive Json where
  | null
  | bool (b : Bool)
  | num (q : ℚ)
  | str (s : String)
  | arr (elems : List Json)
  | obj (members : List (String × Json))

/-- JS truthiness test, negated: `!node` in `findNumericArray`. -/
def Json.isFalsy : Json → Bool
  | .null => true
  | .bool b => !b
  | .num q => q == 0
  | .str s => s == ""
  | .arr _ => false
  | .obj _ => false

/-- `child && typeof child === 'object'`: a non-null JS object or array. -/
def Json.isObjLike : Json → Bool
  | .arr _ => true
  | .obj _ => true
  | _ => false

/-- `typeof node[0] === 'number'` on a non-empty JS array. -/
def headIsNum : List Json → Bool
  | .num _ :: _ => true
  | _ => false

mutual

/-- Number of nodes of a JSON tree (used as fuel for the BFS loop). -/
def jsonSize : Json → Nat
  | .null => 1
  | .bool _ => 1
  | .num _ => 1
  | .str _ => 1
  | .arr l => 1 + jsonSizeList l
  | .obj l => 1 + jsonSizeObj l

def jsonSizeList : List Json → Nat
  | [] => 0
  | x :: xs => jsonSize x + jsonSizeList xs

def jsonSizeObj : List (String × Json) → Nat
  | [] => 0
  | kv :: rest => jsonSize kv.2 + jsonSizeObj rest

end

/-- The children an object node enqueues: member values that are non-null
objects/arrays (`child && typeof child === 'object'`); the `seen` reference
set in the source never fires on a freshly parsed JSON tree (no shared
references), so it is not modelled. -/
def objChildren (kvs : List (String × Json)) : List Json :=
  kvs.filterMap fun kv => if kv.2.isObjLike then some kv.2 else none

/-- The worker loop of `findNumericArray`: a FIFO queue of nodes paired with
their depth, processed breadth-first.  `fuel` bounds the number of loop
iterations; each iteration strictly decreases the total tree size of the
queue, so the fuel `findNumericArray` supplies exceeds what the loop can
consume and the `fuel = 0` branch is unreachable there (this is the
`queueSize`-based argument carried through `bfsFind_complete`). -/
def bfsFind : Nat → Nat → List (Json × Nat) → Option (List Json)
  | _, _, [] => none
  | 0, _, _ :: _ => none
  | fuel + 1, maxDepth, (node, depth) :: rest =>
    if node.isFalsy || decide (maxDepth < depth) then bfsFind fuel maxDepth rest
    else
      match node with
      | .arr l =>
        if !l.isEmpty && headIsNum l then some l
        else bfsFind fuel maxDepth (rest ++ l.map fun c => (c, depth + 1))
      | .obj kvs => bfsFind fuel maxDepth (rest ++ (objChildren kvs).map fun c => (c, depth + 1))
      | _ => bfsFind fuel maxDepth rest

/-- `findNumericArray(root, maxDepth = 6)`: breadth-first search of the parsed
response for the first non-empty array whose first element is a number. -/
def findNumericArray (root : Json) (maxDepth : Nat := 6) : Option (List Json) :=
  bfsFind (jsonSize root + 1) maxDepth [(root, 0)]

/-- `response?.data?.predictions` member access. -/
def getPredictions : Json → Option Json
  | .obj kvs => kvs.lookup "predictions"
  | _ => none

/-- The extraction logic of `generateEmbedding` applied to the parsed
response body: try the first element of a non-empty `predictions` array,
then fall back to searching the whole body. -/
def extractVector (data : Json) : Option (List Json) :=
  let fromPreds : Option (List Json) :=
    match getPredictions data with
    | some (.arr (p :: _)) => findNumericArray p
    | _ => none
  match fromPreds with
  | some v => some v
  | none => findNumericArray data

/-- The text/image payload handed to the provider (which endpoint is called
is the provider's concern and does not affect extraction). -/
structure EmbedInput where
  text : Option String
  imageUri : Option String

/-- `generateEmbedding`: the provider round-trip is external, so its observed
behaviour is a parameter — `providerResponse = none` models a request error
(the `catch` branch), `some data` a 200 response with body `data`.  Returns
`none` on request error or when no vector can be located in the body. -/
def generateEmbedding (_input : EmbedInput) (providerResponse : Option Json) :
    Option (List Json) :=
  match providerResponse with
  | none => none
  | some data => extractVector data

/-! ### Item creation (`createItemPost`) -/

/-- The two references `uploadFileToStorage` resolves with. -/
structure FileRefs where
  signedUrl : String
  gcsUri : String

/-- The client-supplied request body (`frontendData`).  String fields use
`""` for a missing key (JS falsy).  The `…Field` members model keys a client
may include that collide with server-controlled or match-construction names
(`isApproved`, `isResolved`, `posterUid`, `textEmbedding`, `dateReported`,
`score`, `id`); the spread `{...frontendData, ...serverGeneratedFields}`
keeps them unless a server key with the same name overrides them. -/
structure FrontendData where
  name : String
  status : String
  category : String
  description : String
  lastSeenLocation : String
  whereToCollect : String
  imageTempRef : String
  isApprovedField : Option Bool
  isResolvedField : Option Bool
  posterUidField : Option String
  textEmbeddingField : Option (List Json)
  dateReportedField : Option Nat
  scoreField : Option ℚ
  idField : Option String

/-- The document written to the `items` collection.  `textEmbedding = none`
models a JS `null` field, `some []` the empty array.  `scoreField`/`idField`
are client keys named `score`/`id` that survive the spread (no server key
shadows them); `imageTempRef` is deleted before the write, so it has no
counterpart here. -/
structure ItemDocument where
  name : String
  status : String
  category : String
  description : String
  lastSeenLocation : String
  posterUid : String
  isApproved : Bool
  isResolved : Bool
  dateReported : Nat
  textEmbedding : Option (List Json)
  imageUrl : Option String
  whereToCollect : Option String
  scoreField : Option ℚ
  idField : Option String

/-- Outcome of `createItemPost`: a 400 validation rejection, or a 201 with
the document that was persisted. -/
inductive CreateResult where
  | badRequest (httpStatus : Nat) (message : String)
  | created (httpStatus : Nat) (doc : ItemDocument)

/-- `createItemPost(req, res, frontendData, file)`.

External effects are parameters: `uid` is `req.user.uid`; `file` is the
Multer upload together with the references the storage upload resolves to;
`providerResponse` is the embedding provider's observed response;
`serverTime` stands for the `serverTimestamp()` sentinel's resolved value.
The Firestore `add` is modelled by returning the constructed document. -/
def createItemPost (uid : String) (fd : FrontendData) (file : Option FileRefs)
    (providerResponse : Option Json) (serverTime : Nat) : CreateResult :=
  if fd.name = "" ∨ fd.status = "" ∨ fd.category = "" then
    .badRequest 400 "Missing required item fields: name, status, or category."
  else
    let finalImageUrl : Option String := file.map (·.signedUrl)
    let gcsUri : Option String := file.map (·.gcsUri)
    let itemText : String := if fd.description ≠ "" then fd.description else fd.name
    let embeddingInput : EmbedInput :=
      { text := if itemText ≠ "" then some itemText else none, imageUri := gcsUri }
    let imageVector : Option (List Json) :=
      if embeddingInput.text.isSome ∨ embeddingInput.imageUri.isSome then
        generateEmbedding embeddingInput providerResponse
      else some []
    .created 201
      { name := fd.name
        status := fd.status
        category := fd.category
        description := fd.description
        lastSeenLocation := fd.lastSeenLocation
        posterUid := uid
        isApproved := false
        isResolved := false
        dateReported := serverTime
        textEmbedding := imageVector
        imageUrl := finalImageUrl
        whereToCollect :=
          if fd.status = "found" then
            some (if fd.whereToCollect ≠ "" then fd.whereToCollect
                  else "Pending location details")
          else none
        scoreField := fd.scoreField
        idField := fd.idField }

/-! ### Cosine similarity and the matching route -/

noncomputable section

/-- The loop accumulator `dotProduct`: sum of pairwise products over the
common indices (the route only reaches it with equal lengths). -/
def dotList (vecA vecB : List ℝ) : ℝ := (List.zipWith (· * ·) vecA vecB).sum

/-- `cosineSimilarity(vecA, vecB)`: `0` when the first vector is empty or the
lengths differ, `0` when either magnitude is zero, otherwise the dot product
divided by the product of the magnitudes. -/
def cosineSimilarity (vecA vecB : List ℝ) : ℝ :=
  if vecA.length = 0 ∨ vecA.length ≠ vecB.length then 0
  else
    let dotProduct := dotList vecA vecB
    let magnitudeA := Real.sqrt (dotList vecA vecA)
    let magnitudeB := Real.sqrt (dotList vecB vecB)
    if magnitudeA = 0 ∨ magnitudeB = 0 then 0
    else dotProduct / (magnitudeA * magnitudeB)

/-- `parseFloat(score.toFixed(4))`: rounding to 4 decimal places, ties to the
larger value (ECMA `toFixed` picks the larger candidate on a tie, which is
`round` on the scaled value). -/
def round4 (x : ℝ) : ℝ := (round (x * 10000) : ℤ) / 10000

/-- `SIMILARITY_THRESHOLD` of the matches route. -/
def SIMILARITY_THRESHOLD : ℝ := 0.0001

/-- `MAX_MATCHES` of the matches route. -/
def MAX_MATCHES : Nat := 5

/-- A document of the `items` collection as the matches route reads it:
the fields the route filters on, the stored vector (`none` = JS `null` or a
missing field), and the optional stored fields literally named `score` and
`id` that the spread `{id, score, ...targetItem}` would copy over the
computed values (arbitrary further fields are irrelevant to the route). -/
structure StoredItem where
  status : String
  isApproved : Bool
  isResolved : Bool
  textEmbedding : Option (List ℝ)
  scoreField : Option ℝ
  idField : Option String

/-- The store: Firestore documents with their ids, in scan order. -/
abbrev Store := List (String × StoredItem)

/-- One element of the returned `matches` array; `item` carries the spread
candidate fields. -/
structure MatchEntry where
  matchId : String
  score : ℝ
  item : StoredItem

/-- `{ id: targetDoc.id, score: parseFloat(score.toFixed(4)), ...targetItem }`:
the spread comes last, so a stored `id`/`score` field wins over the computed
one. -/
def mkMatch (docId : String) (score : ℝ) (it : StoredItem) : MatchEntry :=
  { matchId := it.idField.getD docId
    score := it.scoreField.getD (round4 score)
    item := it }

/-- Insertion into a descending-by-score list, after all entries with score
`≥` the new one (the stable position). -/
def insertByScoreDesc (m : MatchEntry) : List MatchEntry → List MatchEntry
  | [] => [m]
  | x :: xs => if x.score < m.score then m :: x :: xs else x :: insertByScoreDesc m xs

/-- `matches.sort((a, b) => b.score - a.score)`: a stable descending sort on
the `score` member (`Array.prototype.sort` is stable), realised as left-fold
insertion. -/
def sortByScoreDesc (l : List MatchEntry) : List MatchEntry :=
  l.foldl (fun acc m => insertByScoreDesc m acc) []

/-- Point lookup by document id (`db.collection('items').doc(itemId).get()`). -/
def lookupDoc : Store → String → Option StoredItem
  | [], _ => none
  | (k, v) :: rest, key => if k = key then some v else lookupDoc rest key

/-- The JSON body and HTTP status the matches route responds with. -/
structure MatchesPayload where
  httpStatus : Nat
  success : Bool
  message : Option String
  queryId : Option String
  targetStatus : Option String
  matchList : List MatchEntry

/-- The 200 response sent when the query item has no usable vector. -/
def noEmbeddingPayload : MatchesPayload :=
  { httpStatus := 200
    success := true
    message := some "No embedding found for this item. Cannot run matching."
    queryId := none
    targetStatus := none
    matchList := [] }

/-- The 404 response for an unknown query item. -/
def notFoundPayload : MatchesPayload :=
  { httpStatus := 404
    success := false
    message := some "Item not found."
    queryId := none
    targetStatus := none
    matchList := [] }

/-- The eligibility conjunction of the Firestore query:
`status == targetStatus`, `isApproved == true`, `isResolved == false`. -/
def eligibleFilter (targetStatus : String) (e : String × StoredItem) : Bool :=
  e.2.status == targetStatus && e.2.isApproved && !e.2.isResolved

/-- The body of the scoring loop for one fetched candidate: skip when it has
no usable vector or is the query item itself, otherwise score it and keep it
when the (full-precision) score reaches the threshold. -/
def scoreCandidate (itemId : String) (queryVector : List ℝ) (e : String × StoredItem) :
    Option MatchEntry :=
  match e.2.textEmbedding with
  | none => none
  | some targetVector =>
    if targetVector.length = 0 ∨ e.1 = itemId then none
    else
      let score := cosineSimilarity queryVector targetVector
      if SIMILARITY_THRESHOLD ≤ score then some (mkMatch e.1 score e.2) else none

/-- `GET /api/items/:itemId/matches`. -/
def findMatches (store : Store) (itemId : String) : MatchesPayload :=
  match lookupDoc store itemId with
  | none => notFoundPayload
  | some queryItem =>
    match queryItem.textEmbedding with
    | none => noEmbeddingPayload
    | some queryVector =>
      if queryVector.length = 0 then noEmbeddingPayload
      else
        let targetStatus := if queryItem.status = "lost" then "found" else "lost"
        let targets := store.filter (eligibleFilter targetStatus)
        let matchList := targets.filterMap (scoreCandidate itemId queryVector)
        let topMatches := (sortByScoreDesc matchList).take MAX_MATCHES
        { httpStatus := 200
          success := true
          message := none
          queryId := some itemId
          targetStatus := some targetStatus
          matchList := topMatches }

/-- The scored-and-kept match list after the loop, before sorting. -/
def matchCandidates (store : Store) (itemId : String) (targetStatus : String)
    (queryVector : List ℝ) : List MatchEntry :=
  (store.filter (eligibleFilter targetStatus)).filterMap (scoreCandidate itemId queryVector)

end

/-- Descending order on the `score` member of match entries. -/
def ScoreDesc (a b : MatchEntry) : Prop := b.score ≤ a.score

/-! ### Spec-side description of the kept candidates (for the refinement in C4)

These definitions follow the wording of the specification (steps 4–7 of the
match algorithm): restrict to eligible candidates, drop the query item and
empty vectors, score the rest, keep scores meeting the threshold. -/

noncomputable section

/-- The stored vector, reading an absent field as the empty vector. -/
def vecOf (it : StoredItem) : List ℝ := it.textEmbedding.getD []

/-- Spec wording: eligible candidates that are not the query item and have a
non-empty stored vector. -/
def specEligible (store : Store) (itemId targetStatus : String) : Store :=
  store.filter fun e =>
    eligibleFilter targetStatus e && !(e.1 == itemId) && !(vecOf e.2).isEmpty

/-- Spec wording: score every remaining candidate and keep those whose
(full-precision) similarity meets the threshold. -/
def specKeptMatches (store : Store) (itemId targetStatus : String) (qv : List ℝ) :
    List MatchEntry :=
  ((specEligible store itemId targetStatus).filter fun e =>
      decide (SIMILARITY_THRESHOLD ≤ cosineSimilarity qv (vecOf e.2))).map
    fun e => mkMatch e.1 (cosineSimilarity qv (vecOf e.2)) e.2

end

/-- The `targetStatus` computation of the matches route
(`queryItem.status === 'lost' ? 'found' : 'lost'`). -/
def oppStatus (s : String) : String := if s = "lost" then "found" else "lost"

/-- Total tree size of the nodes sitting in a BFS queue. -/
def queueSize : List (Json × Nat) → Nat
  | [] => 0
  | (n, _) :: rest => jsonSize n + queueSize rest

/-- `Reach n k x`: the traversal rules of `findNumericArray` can take `k`
steps from `n` down to `x` — through elements of arrays and through
object-valued members of objects.  This relation gives an implementation-
independent meaning to "found within the depth bound". -/
inductive Reach : Json → Nat → Json → Prop where
  | refl (n : Json) : Reach n 0 n
  | arrStep {n : Json} {d : Nat} {l : List Json} {c : Json} :
      Reach n d (.arr l) → c ∈ l → Reach n (d + 1) c
  | objStep {n : Json} {d : Nat} {kvs : List (String × Json)} {key : String} {c : Json} :
      Reach n d (.obj kvs) → (key, c) ∈ kvs → c.isObjLike = true → Reach n (d + 1) c

/-- A numeric leaf (`typeof x === 'number'`). -/
def isNumLeaf : Json → Bool
  | .num _ => true
  | _ => false

/-! ### Concrete fixtures used by counterexamples and witnesses -/

/-- A response body with an array that starts with a number but is not
purely numeric. -/
def mixedArray : Json := .arr [.num 1, .str "a"]

/-- A response body with a numeric array nested two objects deep. -/
def respNested : Json :=
  .obj [("a", Json.obj [("b", Json.arr [Json.num 1, Json.num 2])])]

/-- A response body containing no array at all. -/
def respMalformed : Option Json := some (Json.obj [("error", Json.str "Internal")])

/-- A well-formed frontend payload with no override attempts. -/
def fdBase : FrontendData :=
  { name := "Brown Leather Wallet"
    status := "lost"
    category := "Wallet / ID Card"
    description := ""
    lastSeenLocation := "Student Union Cafeteria"
    whereToCollect := ""
    imageTempRef := ""
    isApprovedField := none
    isResolvedField := none
    posterUidField := none
    textEmbeddingField := none
    dateReportedField := none
    scoreField := none
    idField := none }

/-- A payload that tries to pre-approve itself and forge the server fields. -/
def fdForged : FrontendData :=
  { fdBase with
    isApprovedField := some true
    isResolvedField := some true
    posterUidField := some "attacker"
    textEmbeddingField := some [Json.num 1]
    dateReportedField := some 12345 }

/-- A payload that smuggles in fields named `score` and `id`. -/
def fdSpoof : FrontendData :=
  { fdBase with scoreField := some 999, idField := some "spoofed" }

/-- The document `createItemPost` persists for `fdBase` when the provider
response holds no numeric array: note `textEmbedding` is the JS `null`
(`none`), not the empty array. -/
def docWalletNull : ItemDocument :=
  { name := "Brown Leather Wallet"
    status := "lost"
    category := "Wallet / ID Card"
    description := ""
    lastSeenLocation := "Student Union Cafeteria"
    posterUid := "u1"
    isApproved := false
    isResolved := false
    dateReported := 7
    textEmbedding := none
    imageUrl := none
    whereToCollect := none
    scoreField := none
    idField := none }

noncomputable section

/-- A lost query item with the unit vector `[1, 0]`. -/
def qItemW : StoredItem :=
  { status := "lost"
    isApproved := true
    isResolved := false
    textEmbedding := some [1, 0]
    scoreField := none
    idField := none }

/-- A found candidate with vector `[3, 4]`: similarity `3/5` against `[1, 0]`. -/
def candW : StoredItem :=
  { status := "found"
    isApproved := true
    isResolved := false
    textEmbedding := some [3, 4]
    scoreField := none
    idField := none }

/-- A two-item store: the query and one eligible candidate. -/
def storeW : Store := [("q", qItemW), ("c", candW)]

/-- Candidate with vector `[1295, 72]`: similarity `1295/1297 ≈ 0.998458`
against `[1, 0]` (`1295² + 72² = 1297²`). -/
def candLow : StoredItem :=
  { status := "found"
    isApproved := true
    isResolved := false
    textEmbedding := some [1295, 72]
    scoreField := none
    idField := none }

/-- Candidate with vector `[684, 37]`: similarity `684/685 ≈ 0.998540`
against `[1, 0]` (`684² + 37² = 685²`).  Both similarities round to the same
4-decimal value `0.9985`. -/
def candHigh : StoredItem :=
  { status := "found"
    isApproved := true
    isResolved := false
    textEmbedding := some [684, 37]
    scoreField := none
    idField := none }

/-- Store for the rounding-collision counterexample: the lower-similarity
candidate appears first in scan order. -/
def storeCex : Store := [("q", qItemW), ("c1", candLow), ("c2", candHigh)]

/-- A candidate whose stored document carries fields named `score` and `id`. -/
def candSpoof : StoredItem :=
  { status := "found"
    isApproved := true
    isResolved := false
    textEmbedding := some [1, 0]
    scoreField := some 999
    idField := some "spoofed" }

/-- Store for the spread-override check. -/
def storeSpoof : Store := [("q", qItemW), ("cand", candSpoof)]

/-- An item whose stored vector is the empty array. -/
def emptyVecItem : StoredItem :=
  { status := "lost"
    isApproved := true
    isResolved := false
    textEmbedding := some []
    scoreField := none
    idField := none }

/-- Store for the empty-vector response check. -/
def storeEmptyVec : Store := [("e1", emptyVecItem)]

end

/-- One node of the tree has positive size. -/
theorem jsonSize_pos (j : Json) : 0 < jsonSize j := by
  cases j <;> simp [jsonSize]

/-! ### Lemmas about the stable descending sort -/

theorem mem_insertByScoreDesc {x m : MatchEntry} {l : List MatchEntry} :
    x ∈ insertByScoreDesc m l ↔ x = m ∨ x ∈ l := by
  induction l with
  | nil => simp [insertByScoreDesc]
  | cons y ys ih =>
    by_cases h : y.score < m.score
    · simp [insertByScoreDesc, if_pos h]
    · simp [insertByScoreDesc, if_neg h, ih]
      tauto

theorem insertByScoreDesc_sorted {m : MatchEntry} {l : List MatchEntry}
    (h : l.Pairwise ScoreDesc) : (insertByScoreDesc m l).Pairwise ScoreDesc := by
  induction l with
  | nil => simp [insertByScoreDesc, ScoreDesc]
  | cons y ys ih =>
    rcases List.pairwise_cons.mp h with ⟨hy, hys⟩
    by_cases hlt : y.score < m.score
    · rw [insertByScoreDesc, if_pos hlt]
      refine List.pairwise_cons.mpr ⟨?_, h⟩
      intro z hz
      rcases List.mem_cons.mp hz with rfl | hz
      · exact le_of_lt hlt
      · exact le_trans (hy z hz) (le_of_lt hlt)
    · rw [insertByScoreDesc, if_neg hlt]
      refine List.pairwise_cons.mpr ⟨?_, ih hys⟩
      intro z hz
      rcases mem_insertByScoreDesc.mp hz with rfl | hz
      · exact le_of_not_lt hlt
      · exact hy z hz

theorem foldl_insert_mem {x : MatchEntry} :
    ∀ (l acc : List MatchEntry),
      (x ∈ l.foldl (fun acc m => insertByScoreDesc m acc) acc ↔ x ∈ l ∨ x ∈ acc)
  | [], acc => by simp
  | m :: l, acc => by
    rw [List.foldl_cons, foldl_insert_mem l, mem_insertByScoreDesc]
    simp [List.mem_cons]
    tauto

theorem mem_sortByScoreDesc {x : MatchEntry} {l : List MatchEntry} :
    x ∈ sortByScoreDesc l ↔ x ∈ l := by
  rw [sortByScoreDesc, foldl_insert_mem]
  simp

theorem foldl_insert_sorted :
    ∀ (l acc : List MatchEntry), acc.Pairwise ScoreDesc →
      (l.foldl (fun acc m => insertByScoreDesc m acc) acc).Pairwise ScoreDesc
  | [], _, h => h
  | m :: l, acc, h => by
    rw [List.foldl_cons]
    exact foldl_insert_sorted l _ (insertByScoreDesc_sorted h)

theorem sortByScoreDesc_sorted (l : List MatchEntry) :
    (sortByScoreDesc l).Pairwise ScoreDesc :=
  foldl_insert_sorted l [] (by simp)

/-! ### Characterisation of the OK branch of the matches route -/

/-- On a query item with a usable vector, the route answers 200 with the
sorted-and-truncated candidate list. -/
theorem findMatches_ok {store : Store} {itemId : String} {qi : StoredItem} {qv : List ℝ}
    (hl : lookupDoc store itemId = some qi) (hv : qi.textEmbedding = some qv)
    (hne : qv ≠ []) :
    findMatches store itemId =
      { httpStatus := 200
        success := true
        message := none
        queryId := some itemId
        targetStatus := some (oppStatus qi.status)
        matchList := (sortByScoreDesc
          (matchCandidates store itemId (oppStatus qi.status) qv)).take MAX_MATCHES } := by
  have hlen : ¬qv.length = 0 := by simpa [List.length_eq_zero] using hne
  simp only [findMatches, hl, hv, if_neg hlen, matchCandidates, oppStatus]

theorem eligibleFilter_eq_true {ts : String} {e : String × StoredItem} :
    eligibleFilter ts e = true ↔
      e.2.status = ts ∧ e.2.isApproved = true ∧ e.2.isResolved = false := by
  simp [eligibleFilter, Bool.and_eq_true, Bool.not_eq_true', and_assoc]

theorem scoreCandidate_eq_some {itemId : String} {qv : List ℝ} {e : String × StoredItem}
    {m : MatchEntry} :
    scoreCandidate itemId qv e = some m ↔
      ∃ tv, e.2.textEmbedding = some tv ∧ tv ≠ [] ∧ e.1 ≠ itemId ∧
        SIMILARITY_THRESHOLD ≤ cosineSimilarity qv tv ∧
        m = mkMatch e.1 (cosineSimilarity qv tv) e.2 := by
  cases h : e.2.textEmbedding with
  | none => simp [scoreCandidate, h]
  | some tv =>
    simp only [scoreCandidate, h, Option.some.injEq]
    by_cases h0 : tv.length = 0 ∨ e.1 = itemId
    · rw [if_pos h0]
      simp only [false_iff, reduceCtorEq]
      rintro ⟨tv', htv', hne', hid', _, _⟩
      obtain rfl : tv = tv' := by simpa using htv'
      rcases h0 with h0 | h0
      · exact hne' (List.length_eq_zero.mp h0)
      · exact hid' h0
    · rw [if_neg h0]
      push_neg at h0
      obtain ⟨hlen, hid⟩ := h0
      have hne' : tv ≠ [] := fun hnil => hlen (by simp [hnil])
      by_cases hth : SIMILARITY_THRESHOLD ≤ cosineSimilarity qv tv
      · rw [if_pos hth]
        constructor
        · intro heq
          obtain rfl : mkMatch e.1 (cosineSimilarity qv tv) e.2 = m := by
            simpa using heq
          exact ⟨tv, rfl, hne', hid, hth, rfl⟩
        · rintro ⟨tv', htv', _, _, _, rfl⟩
          obtain rfl : tv = tv' := by simpa using htv'
          rfl
      · rw [if_neg hth]
        simp only [false_iff, reduceCtorEq]
        rintro ⟨tv', htv', _, _, hth', _⟩
        obtain rfl : tv = tv' := by simpa using htv'
        exact hth hth'

/-- Membership in the kept-candidate list, spelled out. -/
theorem mem_matchCandidates {store : Store} {itemId ts : String} {qv : List ℝ}
    {m : MatchEntry} :
    m ∈ matchCandidates store itemId ts qv ↔
      ∃ docId it tv, (docId, it) ∈ store ∧
        it.status = ts ∧ it.isApproved = true ∧ it.isResolved = false ∧
        docId ≠ itemId ∧ it.textEmbedding = some tv ∧ tv ≠ [] ∧
        SIMILARITY_THRESHOLD ≤ cosineSimilarity qv tv ∧
        m = mkMatch docId (cosineSimilarity qv tv) it := by
  simp only [matchCandidates, List.mem_filterMap, List.mem_filter]
  constructor
  · rintro ⟨⟨docId, it⟩, ⟨hmem, helig⟩, hscore⟩
    obtain ⟨hst, hap, hre⟩ := eligibleFilter_eq_true.mp helig
    obtain ⟨tv, htv, hne, hid, hth, rfl⟩ := scoreCandidate_eq_some.mp hscore
    exact ⟨docId, it, tv, hmem, hst, hap, hre, hid, htv, hne, hth, rfl⟩
  · rintro ⟨docId, it, tv, hmem, hst, hap, hre, hid, htv, hne, hth, rfl⟩
    refine ⟨(docId, it), ⟨hmem, eligibleFilter_eq_true.mpr ⟨hst, hap, hre⟩⟩, ?_⟩
    exact scoreCandidate_eq_some.mpr ⟨tv, htv, hne, hid, hth, rfl⟩

/-- Elements of the final `matches` array are kept candidates. -/
theorem mem_topMatches {store : Store} {itemId ts : String} {qv : List ℝ} {m : MatchEntry}
    (hm : m ∈ (sortByScoreDesc (matchCandidates store itemId ts qv)).take MAX_MATCHES) :
    m ∈ matchCandidates store itemId ts qv :=
  mem_sortByScoreDesc.mp (List.take_subset _ _ hm)

theorem filterMap_filter_eq {α β : Type _} (p : α → Bool) (f : α → Option β) :
    ∀ l : List α, (l.filter p).filterMap f = l.filterMap fun a => if p a then f a else none
  | [] => rfl
  | a :: l => by
    by_cases h : p a
    · cases hf : f a <;>
        simp [List.filter_cons, h, List.filterMap_cons, hf, filterMap_filter_eq p f l]
    · simp [List.filter_cons, h, List.filterMap_cons, filterMap_filter_eq p f l]

theorem filter_map_eq_filterMap {α β : Type _} (p : α → Bool) (g : α → β) :
    ∀ l : List α, (l.filter p).map g = l.filterMap fun a => if p a then some (g a) else none
  | [] => rfl
  | a :: l => by
    by_cases h : p a <;>
      simp [List.filter_cons, h, List.filterMap_cons, filter_map_eq_filterMap p g l]

/-- Pointwise agreement of the loop body with the spec-side stages. -/
theorem scoreCandidate_spec_pointwise (itemId ts : String) (qv : List ℝ)
    (e : String × StoredItem) :
    (if eligibleFilter ts e then scoreCandidate itemId qv e else none) =
      (if eligibleFilter ts e && !(e.1 == itemId) && !(vecOf e.2).isEmpty then
        if decide (SIMILARITY_THRESHOLD ≤ cosineSimilarity qv (vecOf e.2)) then
          some (mkMatch e.1 (cosineSimilarity qv (vecOf e.2)) e.2)
        else none
      else none) := by
  by_cases h1 : eligibleFilter ts e
  · cases htv : e.2.textEmbedding with
    | none =>
      simp [h1, scoreCandidate, htv, vecOf]
    | some tv =>
      by_cases hid : e.1 = itemId
      · simp [h1, scoreCandidate, htv, vecOf, hid]
      · by_cases hemp : tv.isEmpty
        · have : tv = [] := by simpa [List.isEmpty_iff] using hemp
          simp [h1, scoreCandidate, htv, vecOf, hid, this]
        · have hlen : ¬tv.length = 0 := by
            simpa [List.isEmpty_iff, List.length_eq_zero] using hemp
          have hor : ¬(tv.length = 0 ∨ e.1 = itemId) := by tauto
          simp [scoreCandidate, htv, vecOf, h1, hid, hemp, hor]
          intro h
          simp [h] at hemp
  · simp [h1]

/-- The loop's kept-candidate list coincides with the spec-side
filter/score/threshold pipeline. -/
theorem matchCandidates_eq_specKept (store : Store) (itemId ts : String) (qv : List ℝ) :
    matchCandidates store itemId ts qv = specKeptMatches store itemId ts qv := by
  rw [matchCandidates, specKeptMatches, specEligible,
    filterMap_filter_eq, filter_map_eq_filterMap, filterMap_filter_eq]
  have h : (fun e => if eligibleFilter ts e then scoreCandidate itemId qv e else none) =
      fun (e : String × StoredItem) =>
        (if eligibleFilter ts e && !(e.1 == itemId) && !(vecOf e.2).isEmpty then
          if decide (SIMILARITY_THRESHOLD ≤ cosineSimilarity qv (vecOf e.2)) then
            some (mkMatch e.1 (cosineSimilarity qv (vecOf e.2)) e.2)
          else none
        else none) :=
    funext (scoreCandidate_spec_pointwise itemId ts qv)
  rw [h]

/-! ### Lemmas about `cosineSimilarity` -/

theorem dotList_nil_left (B : List ℝ) : dotList [] B = 0 := by
  simp [dotList]

theorem dotList_cons (a : ℝ) (A : List ℝ) (b : ℝ) (B : List ℝ) :
    dotList (a :: A) (b :: B) = a * b + dotList A B := by
  simp [dotList]

/-- Evaluation helper: the square root of a recognised square. -/
theorem sqrt_eq_of_eq_sq {a m : ℝ} (hm : 0 ≤ m) (h : a = m * m) : Real.sqrt a = m := by
  subst h; exact Real.sqrt_mul_self hm

/-- `cosineSimilarity` on the unit query `[1, 0]` and an integer-magnitude
candidate `[a, b]`: the score is `a / m` when `a * a + b * b = m * m`. -/
theorem cosineSimilarity_unit_query {a b m : ℝ} (hm : 0 < m) (hsq : a * a + b * b = m * m) :
    cosineSimilarity [1, 0] [a, b] = a / m := by
  have hA : Real.sqrt (dotList [1, 0] [1, 0]) = 1 :=
    sqrt_eq_of_eq_sq (by norm_num) (by norm_num [dotList])
  have hB : Real.sqrt (dotList [a, b] [a, b]) = m := by
    refine sqrt_eq_of_eq_sq hm.le ?_
    simp only [dotList, List.zipWith, List.sum_cons, List.sum_nil]
    linarith [hsq]
  have hd : dotList [1, 0] [a, b] = a := by simp [dotList]
  simp only [cosineSimilarity, hA, hB, hd]
  rw [if_neg (by simp), if_neg (by push_neg; exact ⟨one_ne_zero, ne_of_gt hm⟩)]
  rw [one_mul]

/-! ### Claim theorems -/

/-- Claim C3 (confirmed): `cosineSimilarity A B` equals
`dot(A,B) / (‖A‖ * ‖B‖)` when `A` and `B` are non-empty, of equal length and
of nonzero magnitude; it equals `0` whenever either vector is empty, the
lengths differ, or either magnitude is zero; and it is always defined, being
either `0` or that quotient (never an error, never NaN). -/
theorem cosineSimilarity_spec (A B : List ℝ) :
    (A ≠ [] → A.length = B.length →
      Real.sqrt (dotList A A) ≠ 0 → Real.sqrt (dotList B B) ≠ 0 →
      cosineSimilarity A B =
        dotList A B / (Real.sqrt (dotList A A) * Real.sqrt (dotList B B))) ∧
    ((A = [] ∨ B = [] ∨ A.length ≠ B.length ∨
        Real.sqrt (dotList A A) = 0 ∨ Real.sqrt (dotList B B) = 0) →
      cosineSimilarity A B = 0) ∧
    (cosineSimilarity A B = 0 ∨
      cosineSimilarity A B =
        dotList A B / (Real.sqrt (dotList A A) * Real.sqrt (dotList B B))) := by
  refine ⟨?_, ?_, ?_⟩
  · intro h1 h2 h3 h4
    have hg : ¬(A.length = 0 ∨ A.length ≠ B.length) := by
      push_neg
      exact ⟨by simpa [List.length_eq_zero] using h1, h2⟩
    have hm : ¬(Real.sqrt (dotList A A) = 0 ∨ Real.sqrt (dotList B B) = 0) := by
      push_neg
      exact ⟨h3, h4⟩
    simp only [cosineSimilarity, if_neg hg, if_neg hm]
  · intro h
    simp only [cosineSimilarity]
    split
    · rfl
    · rename_i hg
      split
      · rfl
      · rename_i hm
        push_neg at hg hm
        exfalso
        rcases h with rfl | hB | hlen | h0 | h0
        · exact hg.1 rfl
        · subst hB
          exact hg.1 (by simpa using hg.2)
        · exact hlen hg.2
        · exact hm.1 h0
        · exact hm.2 h0
  · simp only [cosineSimilarity]
    split
    · exact Or.inl rfl
    · split
      · exact Or.inl rfl
      · exact Or.inr rfl

/-- Witness for C3 at concrete vectors: `[3,4]` against itself (magnitude 5)
scores `1`, and an empty first vector scores `0`. -/
theorem cosineSimilarity_spec_witness :
    cosineSimilarity [3, 4] [3, 4] = 1 ∧ cosineSimilarity [] [3, 4] = 0 := by
  have h5 : Real.sqrt (dotList [3, 4] [3, 4]) = 5 :=
    sqrt_eq_of_eq_sq (by norm_num) (by norm_num [dotList])
  constructor
  · have h := (cosineSimilarity_spec [3, 4] [3, 4]).1 (by simp) rfl
      (by rw [h5]; norm_num) (by rw [h5]; norm_num)
    rw [h, h5]
    norm_num [dotList]
  · exact (cosineSimilarity_spec [] [3, 4]).2.1 (Or.inl rfl)

/-- Claim C7 (confirmed): an existing query item whose stored vector is
absent (`null`) or empty yields a 200 success with an empty match list and
an explanatory note; an unknown query item yields a distinct 404 failure. -/
theorem findMatches_empty_vector_or_missing (store : Store) (itemId : String) :
    (∀ qi, lookupDoc store itemId = some qi →
      (qi.textEmbedding = none ∨ qi.textEmbedding = some ([] : List ℝ)) →
      (findMatches store itemId).httpStatus = 200 ∧
      (findMatches store itemId).success = true ∧
      (findMatches store itemId).matchList = [] ∧
      (findMatches store itemId).message =
        some "No embedding found for this item. Cannot run matching.") ∧
    (lookupDoc store itemId = none →
      (findMatches store itemId).httpStatus = 404 ∧
      (findMatches store itemId).success = false ∧
      (findMatches store itemId).message = some "Item not found.") := by
  constructor
  · rintro qi hqi (hv | hv) <;>
      simp [findMatches, hqi, hv, noEmbeddingPayload]
  · intro h
    simp [findMatches, h, notFoundPayload]

/-- Witness for C7: on the concrete one-item store whose item has an empty
stored vector, the route returns 200/success/no matches, and an unknown id
returns 404. -/
theorem findMatches_empty_vector_or_missing_witness :
    (findMatches storeEmptyVec "e1").httpStatus = 200 ∧
    (findMatches storeEmptyVec "e1").success = true ∧
    (findMatches storeEmptyVec "e1").matchList = [] ∧
    (findMatches storeEmptyVec "zzz").httpStatus = 404 ∧
    (findMatches storeEmptyVec "zzz").success = false := by
  have h1 := (findMatches_empty_vector_or_missing storeEmptyVec "e1").1 emptyVecItem
    (by simp [storeEmptyVec, lookupDoc]) (Or.inr (by simp [emptyVecItem]))
  have h2 := (findMatches_empty_vector_or_missing storeEmptyVec "zzz").2
    (by simp [storeEmptyVec, lookupDoc])
  exact ⟨h1.1, h1.2.1, h1.2.2.1, h2.1, h2.2.1⟩

/-- Claim C5 (confirmed): for a query item with status lost or found, the
route reports the opposite status as `targetStatus`, and every returned
match is backed by a stored candidate with exactly that status, approved and
unresolved — never the query item's own status. -/
theorem findMatches_cross_status {store : Store} {itemId : String} {qi : StoredItem}
    {qv : List ℝ} (hl : lookupDoc store itemId = some qi)
    (hv : qi.textEmbedding = some qv) (hne : qv ≠ [])
    (hstat : qi.status = "lost" ∨ qi.status = "found") :
    (findMatches store itemId).targetStatus = some (oppStatus qi.status) ∧
    oppStatus qi.status ≠ qi.status ∧
    ∀ m ∈ (findMatches store itemId).matchList,
      ∃ docId, (docId, m.item) ∈ store ∧
        m.item.status = oppStatus qi.status ∧
        m.item.isApproved = true ∧ m.item.isResolved = false ∧
        m.item.status ≠ qi.status := by
  have hok := findMatches_ok hl hv hne
  have hopp : oppStatus qi.status ≠ qi.status := by
    rcases hstat with h | h <;> simp [oppStatus, h]
  refine ⟨by rw [hok], hopp, ?_⟩
  intro m hm
  rw [hok] at hm
  obtain ⟨docId, it, tv, hmem, hst, hap, hre, hid, htv, hne', hth, rfl⟩ :=
    mem_matchCandidates.mp (mem_topMatches hm)
  refine ⟨docId, ?_, ?_, ?_, ?_, ?_⟩
  · simpa [mkMatch] using hmem
  · simpa [mkMatch] using hst
  · simpa [mkMatch] using hap
  · simpa [mkMatch] using hre
  · simp only [mkMatch]
    rw [hst]
    exact hopp

/-- Witness for C5: on the concrete store, the lost query gets
`targetStatus = "found"` and its single match is the found candidate. -/
theorem findMatches_cross_status_witness :
    (findMatches storeW "q").targetStatus = some "found" ∧
    ∀ m ∈ (findMatches storeW "q").matchList,
      ∃ docId, (docId, m.item) ∈ storeW ∧ m.item.status = "found" ∧
        m.item.isApproved = true ∧ m.item.isResolved = false := by
  have h := @findMatches_cross_status storeW "q" qItemW [1, 0]
    (by simp [storeW, lookupDoc]) (by simp [qItemW]) (by simp)
    (Or.inl (by simp [qItemW]))
  have hopp : oppStatus qItemW.status = "found" := by simp [oppStatus, qItemW]
  refine ⟨by rw [h.1, hopp], ?_⟩
  intro m hm
  obtain ⟨docId, hmem, hst, hap, hre, _⟩ := h.2.2 m hm
  exact ⟨docId, hmem, by rwa [hopp] at hst, hap, hre⟩

/-- Claim C6 (confirmed): every returned match is backed by a stored
candidate whose document id differs from the query id and whose stored
vector is non-empty — candidates failing either test are skipped, and in
particular the query item itself never appears. -/
theorem findMatches_excludes_query {store : Store} {itemId : String} {qi : StoredItem}
    {qv : List ℝ} (hl : lookupDoc store itemId = some qi)
    (hv : qi.textEmbedding = some qv) (hne : qv ≠ []) :
    ∀ m ∈ (findMatches store itemId).matchList,
      ∃ docId it tv, (docId, it) ∈ store ∧ m.item = it ∧ docId ≠ itemId ∧
        it.textEmbedding = some tv ∧ tv ≠ [] := by
  intro m hm
  rw [findMatches_ok hl hv hne] at hm
  obtain ⟨docId, it, tv, hmem, hst, hap, hre, hid, htv, hne', hth, rfl⟩ :=
    mem_matchCandidates.mp (mem_topMatches hm)
  exact ⟨docId, it, tv, hmem, rfl, hid, htv, hne'⟩

theorem cos_cand : cosineSimilarity [1, 0] [3, 4] = 3 / 5 :=
  cosineSimilarity_unit_query (by norm_num) (by norm_num)

theorem round4_cand : round4 (3 / 5) = 0.6 := by
  rw [round4]
  have h : ⌊(3 / 5 : ℝ) * 10000 + 1 / 2⌋ = 6000 := by
    rw [Int.floor_eq_iff]
    norm_num
  rw [round_eq, h]
  norm_num

theorem scoreCandidate_eval_cand :
    scoreCandidate "q" [1, 0] ("c", candW) =
      some { matchId := "c", score := 0.6, item := candW } := by
  simp only [scoreCandidate, candW]
  rw [if_neg (by simp)]
  rw [if_pos (by rw [cos_cand]; norm_num [SIMILARITY_THRESHOLD])]
  simp [mkMatch, candW, cos_cand, round4_cand]

/-- The match list of the two-item store evaluates to the single candidate
entry with the rounded score `0.6`. -/
theorem findMatches_W_eval :
    (findMatches storeW "q").matchList =
      [{ matchId := "c", score := 0.6, item := candW }] := by
  rw [@findMatches_ok storeW "q" qItemW [1, 0]
    (by simp [storeW, lookupDoc]) (by simp [qItemW]) (by simp)]
  have hopp : oppStatus qItemW.status = "found" := by simp [oppStatus, qItemW]
  rw [hopp]
  have hmc : matchCandidates storeW "q" "found" [1, 0] =
      [{ matchId := "c", score := 0.6, item := candW }] := by
    rw [matchCandidates, storeW]
    rw [show List.filter (eligibleFilter "found") [("q", qItemW), ("c", candW)] =
        [("c", candW)] by simp [eligibleFilter, qItemW, candW]]
    simp [List.filterMap, scoreCandidate_eval_cand]
  rw [hmc]
  simp [sortByScoreDesc, insertByScoreDesc, MAX_MATCHES]

/-- Witness for C6: on the concrete store, the one returned match is backed
by the candidate document `"c"`, not the query `"q"`. -/
theorem findMatches_excludes_query_witness :
    ∃ docId it tv, (docId, it) ∈ storeW ∧
      ({ matchId := "c", score := 0.6, item := candW } : MatchEntry).item = it ∧
      docId ≠ "q" ∧ it.textEmbedding = some tv ∧ tv ≠ [] :=
  @findMatches_excludes_query storeW "q" qItemW [1, 0]
    (by simp [storeW, lookupDoc]) (by simp [qItemW]) (by simp)
    { matchId := "c", score := 0.6, item := candW }
    (by rw [findMatches_W_eval]; simp)

/-- Claim C4 (confirmed): the returned match list is exactly the spec-side
pipeline — eligible candidates scored, kept when the full-precision score
meets the threshold, stably sorted by descending reported score, truncated
to `MAX_MATCHES` — so it is sorted descending and never longer than
`MAX_MATCHES`. -/
theorem findMatches_threshold_sort_truncate {store : Store} {itemId : String}
    {qi : StoredItem} {qv : List ℝ} (hl : lookupDoc store itemId = some qi)
    (hv : qi.textEmbedding = some qv) (hne : qv ≠ []) :
    (findMatches store itemId).matchList.length ≤ MAX_MATCHES ∧
    (findMatches store itemId).matchList.Pairwise ScoreDesc ∧
    (findMatches store itemId).matchList =
      (sortByScoreDesc (specKeptMatches store itemId (oppStatus qi.status) qv)).take
        MAX_MATCHES := by
  rw [findMatches_ok hl hv hne]
  refine ⟨?_, ?_, ?_⟩
  · simp [List.length_take]
  · exact List.Pairwise.sublist (List.take_sublist _ _) (sortByScoreDesc_sorted _)
  · rw [matchCandidates_eq_specKept]

/-- Witness for C4: concrete store with one kept candidate; the returned
list has length `≤ 5`, is sorted, and matches the spec pipeline. -/
theorem findMatches_threshold_sort_truncate_witness :
    (findMatches storeW "q").matchList.length ≤ MAX_MATCHES ∧
    (findMatches storeW "q").matchList.Pairwise ScoreDesc ∧
    (findMatches storeW "q").matchList =
      (sortByScoreDesc (specKeptMatches storeW "q" (oppStatus qItemW.status)
        [1, 0])).take MAX_MATCHES :=
  @findMatches_threshold_sort_truncate storeW "q" qItemW [1, 0]
    (by simp [storeW, lookupDoc]) (by simp [qItemW]) (by simp)

/-! ### The bounded-depth search: soundness and completeness (C8) -/

theorem reach_zero {n v : Json} (h : Reach n 0 v) : n = v := by
  cases h
  rfl

theorem reach_of_child_arr {l : List Json} {c v : Json} {k : Nat}
    (hc : c ∈ l) (h : Reach c k v) : Reach (.arr l) (k + 1) v := by
  induction h with
  | refl => exact Reach.arrStep (Reach.refl _) hc
  | arrStep h hm ih => exact Reach.arrStep ih hm
  | objStep h hm hobj ih => exact Reach.objStep ih hm hobj

theorem reach_of_child_obj {kvs : List (String × Json)} {key : String} {c v : Json}
    {k : Nat} (hc : (key, c) ∈ kvs) (hobj : c.isObjLike = true) (h : Reach c k v) :
    Reach (.obj kvs) (k + 1) v := by
  induction h with
  | refl => exact Reach.objStep (Reach.refl _) hc hobj
  | arrStep h hm ih => exact Reach.arrStep ih hm
  | objStep h hm hobj2 ih => exact Reach.objStep ih hm hobj2

/-- First-step decomposition of a non-trivial reachability path. -/
theorem reach_first_step {n v : Json} {k0 : Nat} (h : Reach n k0 v) :
    ∀ k, k0 = k + 1 →
      (∃ l c, n = .arr l ∧ c ∈ l ∧ Reach c k v) ∨
      (∃ kvs key c, n = .obj kvs ∧ (key, c) ∈ kvs ∧ c.isObjLike = true ∧
        Reach c k v) := by
  induction h with
  | refl =>
    intro k hk
    omega
  | @arrStep dp lp cp h hm ih =>
    intro k hk
    obtain rfl : dp = k := by omega
    rcases Nat.eq_zero_or_pos dp with rfl | hpos
    · obtain rfl : n = .arr lp := reach_zero h
      exact Or.inl ⟨lp, cp, rfl, hm, Reach.refl cp⟩
    · obtain ⟨k₁, rfl⟩ : ∃ k₁, dp = k₁ + 1 := ⟨dp - 1, by omega⟩
      rcases ih k₁ rfl with ⟨l₀, c₀, rfl, hc₀, hr⟩ |
          ⟨kvs₀, key₀, c₀, rfl, hc₀, hobj₀, hr⟩
      · exact Or.inl ⟨l₀, c₀, rfl, hc₀, Reach.arrStep hr hm⟩
      · exact Or.inr ⟨kvs₀, key₀, c₀, rfl, hc₀, hobj₀, Reach.arrStep hr hm⟩
  | @objStep dp kvsp keyp cp h hm hobj ih =>
    intro k hk
    obtain rfl : dp = k := by omega
    rcases Nat.eq_zero_or_pos dp with rfl | hpos
    · obtain rfl : n = .obj kvsp := reach_zero h
      exact Or.inr ⟨kvsp, keyp, cp, rfl, hm, hobj, Reach.refl cp⟩
    · obtain ⟨k₁, rfl⟩ : ∃ k₁, dp = k₁ + 1 := ⟨dp - 1, by omega⟩
      rcases ih k₁ rfl with ⟨l₀, c₀, rfl, hc₀, hr⟩ |
          ⟨kvs₀, key₀, c₀, rfl, hc₀, hobj₀, hr⟩
      · exact Or.inl ⟨l₀, c₀, rfl, hc₀, Reach.objStep hr hm hobj⟩
      · exact Or.inr ⟨kvs₀, key₀, c₀, rfl, hc₀, hobj₀, Reach.objStep hr hm hobj⟩

/-- A non-trivially reachable source is an array or an object (hence truthy). -/
theorem reach_source_shape {n v : Json} {k : Nat} (h : Reach n k v)
    (harr : ∀ l, n ≠ .arr l) (hobj : ∀ kvs, n ≠ .obj kvs) :
    k = 0 ∧ n = v := by
  cases k with
  | zero => exact ⟨rfl, reach_zero h⟩
  | succ k₁ =>
    rcases reach_first_step h k₁ rfl with ⟨l, c, rfl, _, _⟩ |
        ⟨kvs, key, c, rfl, _, _, _⟩
    · exact absurd rfl (harr l)
    · exact absurd rfl (hobj kvs)

theorem queueSize_append :
    ∀ A B : List (Json × Nat), queueSize (A ++ B) = queueSize A + queueSize B
  | [], B => by simp [queueSize]
  | (n, d) :: A, B => by
    rw [List.cons_append]
    rw [show queueSize ((n, d) :: (A ++ B)) = jsonSize n + queueSize (A ++ B) from rfl]
    rw [queueSize_append A B]
    rw [show queueSize ((n, d) :: A) = jsonSize n + queueSize A from rfl]
    omega

theorem queueSize_map (l : List Json) (d : Nat) :
    queueSize (l.map fun c => (c, d)) = jsonSizeList l := by
  induction l with
  | nil => simp [queueSize, jsonSizeList]
  | cons x xs ih => simp [queueSize, jsonSizeList, ih]

theorem mem_objChildren {kvs : List (String × Json)} {c : Json} :
    c ∈ objChildren kvs ↔ ∃ key, (key, c) ∈ kvs ∧ c.isObjLike = true := by
  simp only [objChildren, List.mem_filterMap]
  constructor
  · rintro ⟨kv, hkv, hc⟩
    by_cases h : kv.2.isObjLike
    · rw [if_pos h] at hc
      obtain rfl : kv.2 = c := by simpa using hc
      exact ⟨kv.1, hkv, h⟩
    · rw [if_neg h] at hc
      exact absurd hc (by simp)
  · rintro ⟨key, hkv, hobj⟩
    exact ⟨(key, c), hkv, by rw [if_pos hobj]⟩

theorem jsonSizeList_objChildren_le (kvs : List (String × Json)) :
    jsonSizeList (objChildren kvs) ≤ jsonSizeObj kvs := by
  induction kvs with
  | nil => simp [objChildren, jsonSizeList, jsonSizeObj]
  | cons kv rest ih =>
    simp only [objChildren, List.filterMap_cons] at *
    by_cases h : kv.2.isObjLike
    · rw [if_pos h]
      simp only [jsonSizeList, jsonSizeObj]
      omega
    · rw [if_neg h]
      simp only [jsonSizeObj]
      omega

/-- Soundness of the BFS loop: a returned array is a non-empty,
numeric-headed array reachable from some queue entry within the depth
bound. -/
theorem bfsFind_sound :
    ∀ (fuel maxDepth : Nat) (Q : List (Json × Nat)) (v : List Json),
      bfsFind fuel maxDepth Q = some v →
      ∃ p, p ∈ Q ∧ ∃ k, Reach p.1 k (.arr v) ∧ p.2 + k ≤ maxDepth ∧
        v ≠ [] ∧ headIsNum v = true
  | fuel, maxDepth, [], v, h => by cases fuel <;> simp [bfsFind] at h
  | 0, maxDepth, (n, d) :: rest, v, h => by simp [bfsFind] at h
  | fuel + 1, maxDepth, (node, depth) :: rest, v, h => by
    have step_rest : bfsFind fuel maxDepth rest = some v →
        ∃ p, p ∈ (node, depth) :: rest ∧ ∃ k, Reach p.1 k (.arr v) ∧
          p.2 + k ≤ maxDepth ∧ v ≠ [] ∧ headIsNum v = true := by
      intro h'
      obtain ⟨p, hp, hrest⟩ := bfsFind_sound fuel maxDepth rest v h'
      exact ⟨p, List.mem_cons_of_mem _ hp, hrest⟩
    cases node with
    | arr l =>
      simp only [bfsFind] at h
      by_cases hskip : ((Json.arr l).isFalsy || decide (maxDepth < depth)) = true
      · rw [if_pos hskip] at h
        exact step_rest h
      · rw [if_neg hskip] at h
        simp only [Bool.or_eq_true, decide_eq_true_eq, not_or] at hskip
        have hdep : depth ≤ maxDepth := Nat.le_of_not_lt hskip.2
        by_cases hm : (!l.isEmpty && headIsNum l) = true
        · rw [if_pos hm] at h
          obtain rfl : l = v := by simpa using h
          simp only [Bool.and_eq_true, Bool.not_eq_true'] at hm
          refine ⟨(.arr l, depth), List.mem_cons_self _ _, 0, Reach.refl _,
            by omega, ?_, hm.2⟩
          simpa [List.isEmpty_iff] using hm.1
        · rw [if_neg hm] at h
          obtain ⟨p, hp, k, hr, hd, hne, hh⟩ := bfsFind_sound fuel maxDepth _ v h
          rcases List.mem_append.mp hp with hp | hp
          · exact ⟨p, List.mem_cons_of_mem _ hp, k, hr, hd, hne, hh⟩
          · obtain ⟨c, hc, rfl⟩ := List.mem_map.mp hp
            refine ⟨(.arr l, depth), List.mem_cons_self _ _, k + 1,
              reach_of_child_arr hc hr, by omega, hne, hh⟩
    | obj kvs =>
      simp only [bfsFind] at h
      by_cases hskip : ((Json.obj kvs).isFalsy || decide (maxDepth < depth)) = true
      · rw [if_pos hskip] at h
        exact step_rest h
      · rw [if_neg hskip] at h
        simp only [Bool.or_eq_true, decide_eq_true_eq, not_or] at hskip
        have hdep : depth ≤ maxDepth := Nat.le_of_not_lt hskip.2
        obtain ⟨p, hp, k, hr, hd, hne, hh⟩ := bfsFind_sound fuel maxDepth _ v h
        rcases List.mem_append.mp hp with hp | hp
        · exact ⟨p, List.mem_cons_of_mem _ hp, k, hr, hd, hne, hh⟩
        · obtain ⟨c, hc, rfl⟩ := List.mem_map.mp hp
          obtain ⟨key, hkv, hobj⟩ := mem_objChildren.mp hc
          refine ⟨(.obj kvs, depth), List.mem_cons_self _ _, k + 1,
            reach_of_child_obj hkv hobj hr, by omega, hne, hh⟩
    | null =>
      simp only [bfsFind] at h
      split at h
      · exact step_rest h
      · exact step_rest h
    | bool b =>
      simp only [bfsFind] at h
      split at h
      · exact step_rest h
      · exact step_rest h
    | num q =>
      simp only [bfsFind] at h
      split at h
      · exact step_rest h
      · exact step_rest h
    | str st =>
      simp only [bfsFind] at h
      split at h
      · exact step_rest h
      · exact step_rest h

/-- Completeness of the BFS loop: with enough fuel, if some queue entry can
reach a non-empty numeric-headed array within the depth bound, the loop
returns a result (not necessarily that array — the breadth-first-earliest
one). -/
theorem bfsFind_complete :
    ∀ (fuel maxDepth : Nat) (Q : List (Json × Nat)) (n : Json) (dn k : Nat)
      (l : List Json),
      queueSize Q ≤ fuel → (n, dn) ∈ Q → Reach n k (.arr l) →
      dn + k ≤ maxDepth → l ≠ [] → headIsNum l = true →
      ∃ w, bfsFind fuel maxDepth Q = some w
  | _, _, [], _, _, _, _, _, hmem, _, _, _, _ => by simp at hmem
  | 0, _, (m, e) :: rest, _, _, _, _, hfuel, _, _, _, _, _ => by
    exfalso
    have h1 := jsonSize_pos m
    have h2 : queueSize ((m, e) :: rest) = jsonSize m + queueSize rest := rfl
    omega
  | fuel + 1, maxDepth, (m, e) :: rest, n, dn, k, l, hfuel, hmem, hreach, hdep,
      hne, hhead => by
    cases m with
    | arr l₀ =>
      have hq1 : queueSize ((Json.arr l₀, e) :: rest) =
          (1 + jsonSizeList l₀) + queueSize rest := rfl
      simp only [bfsFind]
      by_cases hskip : ((Json.arr l₀).isFalsy || decide (maxDepth < e)) = true
      · rw [if_pos hskip]
        rcases List.mem_cons.mp hmem with heq | hmem2
        · exfalso
          obtain ⟨rfl, rfl⟩ : n = Json.arr l₀ ∧ dn = e :=
            ⟨congrArg Prod.fst heq, congrArg Prod.snd heq⟩
          simp only [Json.isFalsy, Bool.false_or, decide_eq_true_eq] at hskip
          omega
        · exact bfsFind_complete fuel maxDepth rest n dn k l (by omega) hmem2
            hreach hdep hne hhead
      · rw [if_neg hskip]
        by_cases hm : (!l₀.isEmpty && headIsNum l₀) = true
        · rw [if_pos hm]
          exact ⟨l₀, rfl⟩
        · rw [if_neg hm]
          have hq2 : queueSize (rest ++ l₀.map fun c => (c, e + 1)) =
              queueSize rest + jsonSizeList l₀ := by
            rw [queueSize_append, queueSize_map]
          rcases List.mem_cons.mp hmem with heq | hmem2
          · obtain ⟨rfl, rfl⟩ : n = Json.arr l₀ ∧ dn = e :=
              ⟨congrArg Prod.fst heq, congrArg Prod.snd heq⟩
            cases k with
            | zero =>
              exfalso
              have h0 := reach_zero hreach
              injection h0 with h1
              subst h1
              apply hm
              simp only [Bool.and_eq_true, Bool.not_eq_true']
              exact ⟨by simpa [List.isEmpty_iff] using hne, hhead⟩
            | succ k₁ =>
              rcases reach_first_step hreach k₁ rfl with ⟨l₁, c₁, heq₁, hc₁, hr₁⟩ |
                  ⟨kvs₁, key₁, c₁, heq₁, _, _, _⟩
              · injection heq₁ with h1
                subst h1
                exact bfsFind_complete fuel maxDepth _ c₁ (dn + 1) k₁ l (by omega)
                  (List.mem_append.mpr (Or.inr (List.mem_map.mpr ⟨c₁, hc₁, rfl⟩)))
                  hr₁ (by omega) hne hhead
              · exact absurd heq₁ (by simp)
          · exact bfsFind_complete fuel maxDepth _ n dn k l (by omega)
              (List.mem_append.mpr (Or.inl hmem2)) hreach hdep hne hhead
    | obj kvs₀ =>
      have hq1 : queueSize ((Json.obj kvs₀, e) :: rest) =
          (1 + jsonSizeObj kvs₀) + queueSize rest := rfl
      simp only [bfsFind]
      by_cases hskip : ((Json.obj kvs₀).isFalsy || decide (maxDepth < e)) = true
      · rw [if_pos hskip]
        rcases List.mem_cons.mp hmem with heq | hmem2
        · exfalso
          obtain ⟨rfl, rfl⟩ : n = Json.obj kvs₀ ∧ dn = e :=
            ⟨congrArg Prod.fst heq, congrArg Prod.snd heq⟩
          simp only [Json.isFalsy, Bool.false_or, decide_eq_true_eq] at hskip
          omega
        · exact bfsFind_complete fuel maxDepth rest n dn k l (by omega) hmem2
            hreach hdep hne hhead
      · rw [if_neg hskip]
        have hq2 : queueSize (rest ++ (objChildren kvs₀).map fun c => (c, e + 1)) =
            queueSize rest + jsonSizeList (objChildren kvs₀) := by
          rw [queueSize_append, queueSize_map]
        have hq3 := jsonSizeList_objChildren_le kvs₀
        rcases List.mem_cons.mp hmem with heq | hmem2
        · obtain ⟨rfl, rfl⟩ : n = Json.obj kvs₀ ∧ dn = e :=
            ⟨congrArg Prod.fst heq, congrArg Prod.snd heq⟩
          cases k with
          | zero => exact absurd (reach_zero hreach) (by simp)
          | succ k₁ =>
            rcases reach_first_step hreach k₁ rfl with ⟨l₁, c₁, heq₁, _, _⟩ |
                ⟨kvs₁, key₁, c₁, heq₁, hkc₁, hobj₁, hr₁⟩
            · exact absurd heq₁ (by simp)
            · injection heq₁ with h1
              subst h1
              have hcmem : c₁ ∈ objChildren kvs₀ :=
                mem_objChildren.mpr ⟨key₁, hkc₁, hobj₁⟩
              exact bfsFind_complete fuel maxDepth _ c₁ (dn + 1) k₁ l (by omega)
                (List.mem_append.mpr (Or.inr (List.mem_map.mpr ⟨c₁, hcmem, rfl⟩)))
                hr₁ (by omega) hne hhead
        · exact bfsFind_complete fuel maxDepth _ n dn k l (by omega)
            (List.mem_append.mpr (Or.inl hmem2)) hreach hdep hne hhead
    | null =>
      have hq1 : queueSize ((Json.null, e) :: rest) = 1 + queueSize rest := rfl
      have hrest : (n, dn) ∈ rest := by
        rcases List.mem_cons.mp hmem with heq | hmem2
        · exfalso
          obtain ⟨rfl, rfl⟩ : n = Json.null ∧ dn = e :=
            ⟨congrArg Prod.fst heq, congrArg Prod.snd heq⟩
          obtain ⟨-, heqv⟩ := reach_source_shape hreach (by simp) (by simp)
          exact absurd heqv (by simp)
        · exact hmem2
      obtain ⟨w, hw⟩ := bfsFind_complete fuel maxDepth rest n dn k l (by omega)
        hrest hreach hdep hne hhead
      refine ⟨w, ?_⟩
      simp only [bfsFind]
      split
      · exact hw
      · exact hw
    | bool b =>
      have hq1 : queueSize ((Json.bool b, e) :: rest) = 1 + queueSize rest := rfl
      have hrest : (n, dn) ∈ rest := by
        rcases List.mem_cons.mp hmem with heq | hmem2
        · exfalso
          obtain ⟨rfl, rfl⟩ : n = Json.bool b ∧ dn = e :=
            ⟨congrArg Prod.fst heq, congrArg Prod.snd heq⟩
          obtain ⟨-, heqv⟩ := reach_source_shape hreach (by simp) (by simp)
          exact absurd heqv (by simp)
        · exact hmem2
      obtain ⟨w, hw⟩ := bfsFind_complete fuel maxDepth rest n dn k l (by omega)
        hrest hreach hdep hne hhead
      refine ⟨w, ?_⟩
      simp only [bfsFind]
      split
      · exact hw
      · exact hw
    | num q =>
      have hq1 : queueSize ((Json.num q, e) :: rest) = 1 + queueSize rest := rfl
      have hrest : (n, dn) ∈ rest := by
        rcases List.mem_cons.mp hmem with heq | hmem2
        · exfalso
          obtain ⟨rfl, rfl⟩ : n = Json.num q ∧ dn = e :=
            ⟨congrArg Prod.fst heq, congrArg Prod.snd heq⟩
          obtain ⟨-, heqv⟩ := reach_source_shape hreach (by simp) (by simp)
          exact absurd heqv (by simp)
        · exact hmem2
      obtain ⟨w, hw⟩ := bfsFind_complete fuel maxDepth rest n dn k l (by omega)
        hrest hreach hdep hne hhead
      refine ⟨w, ?_⟩
      simp only [bfsFind]
      split
      · exact hw
      · exact hw
    | str st =>
      have hq1 : queueSize ((Json.str st, e) :: rest) = 1 + queueSize rest := rfl
      have hrest : (n, dn) ∈ rest := by
        rcases List.mem_cons.mp hmem with heq | hmem2
        · exfalso
          obtain ⟨rfl, rfl⟩ : n = Json.str st ∧ dn = e :=
            ⟨congrArg Prod.fst heq, congrArg Prod.snd heq⟩
          obtain ⟨-, heqv⟩ := reach_source_shape hreach (by simp) (by simp)
          exact absurd heqv (by simp)
        · exact hmem2
      obtain ⟨w, hw⟩ := bfsFind_complete fuel maxDepth rest n dn k l (by omega)
        hrest hreach hdep hne hhead
      refine ⟨w, ?_⟩
      simp only [bfsFind]
      split
      · exact hw
      · exact hw

/-- Claim C8 (amended): `findNumericArray` performs a bounded-depth
structural search and returns a non-empty array whose FIRST element is
numeric, found within the depth bound (the remaining elements are not
checked); it returns `null` exactly when no non-empty array with a numeric
first element is reachable within the bound. -/
theorem findNumericArray_spec (root : Json) (maxDepth : Nat) :
    (∀ v, findNumericArray root maxDepth = some v →
      ∃ k, k ≤ maxDepth ∧ Reach root k (.arr v) ∧ v ≠ [] ∧ headIsNum v = true) ∧
    (findNumericArray root maxDepth = none →
      ∀ k l, k ≤ maxDepth → Reach root k (.arr l) →
        l = [] ∨ headIsNum l = false) := by
  constructor
  · intro v h
    obtain ⟨p, hp, k, hr, hd, hne, hh⟩ := bfsFind_sound _ _ _ _ h
    obtain rfl : p = (root, 0) := by simpa using hp
    exact ⟨k, by simpa using hd, hr, hne, hh⟩
  · intro h k l hk hr
    by_cases hne : l = []
    · exact Or.inl hne
    · by_cases hh : headIsNum l = true
      · exfalso
        obtain ⟨w, hw⟩ := bfsFind_complete (jsonSize root + 1) maxDepth
          [(root, 0)] root 0 k l
          (by have h0 : queueSize [(root, 0)] = jsonSize root + 0 := rfl; omega)
          (by simp) hr (by omega) hne hh
        rw [findNumericArray] at h
        rw [h] at hw
        cases hw
      · exact Or.inr (by simpa using hh)

/-- Counterexample for C8 as stated: the body `[1, "a"]` contains no array
of purely numeric values, yet `findNumericArray` returns the mixed array
`[1, "a"]` (only the first element is checked) instead of the `null` the
claim requires. -/
theorem findNumericArray_mixed_cex :
    findNumericArray mixedArray = some [Json.num 1, Json.str "a"] ∧
    ([Json.num 1, Json.str "a"] : List Json).all isNumLeaf = false := by
  constructor
  · rfl
  · rfl

/-- Witness for C8: on the nested response, the extraction returns the
numeric array sitting two objects deep, certified by the claim theorem as
reachable within the depth bound. -/
theorem findNumericArray_spec_witness :
    ∃ k, k ≤ 6 ∧ Reach respNested k (.arr [Json.num 1, Json.num 2]) ∧
      ([Json.num 1, Json.num 2] : List Json) ≠ [] ∧
      headIsNum [Json.num 1, Json.num 2] = true :=
  (findNumericArray_spec respNested 6).1 [Json.num 1, Json.num 2] rfl

/-! ### Concrete score evaluations -/

theorem cos_unit : cosineSimilarity [1, 0] [1, 0] = 1 := by
  have h := cosineSimilarity_unit_query (a := 1) (b := 0) (m := 1)
    (by norm_num) (by norm_num)
  simpa using h

theorem cos_low : cosineSimilarity [1, 0] [1295, 72] = 1295 / 1297 :=
  cosineSimilarity_unit_query (by norm_num) (by norm_num)

theorem cos_high : cosineSimilarity [1, 0] [684, 37] = 684 / 685 :=
  cosineSimilarity_unit_query (by norm_num) (by norm_num)

theorem round4_one : round4 1 = 1 := by
  rw [round4]
  have h : ⌊(1 : ℝ) * 10000 + 1 / 2⌋ = 10000 := by
    rw [Int.floor_eq_iff]
    norm_num
  rw [round_eq, h]
  norm_num

theorem round4_low : round4 (1295 / 1297) = 0.9985 := by
  rw [round4]
  have h : ⌊(1295 / 1297 : ℝ) * 10000 + 1 / 2⌋ = 9985 := by
    rw [Int.floor_eq_iff]
    norm_num
  rw [round_eq, h]
  norm_num

theorem round4_high : round4 (684 / 685) = 0.9985 := by
  rw [round4]
  have h : ⌊(684 / 685 : ℝ) * 10000 + 1 / 2⌋ = 9985 := by
    rw [Int.floor_eq_iff]
    norm_num
  rw [round_eq, h]
  norm_num

theorem scoreCandidate_eval_spoof :
    scoreCandidate "q" [1, 0] ("cand", candSpoof) =
      some { matchId := "spoofed", score := 999, item := candSpoof } := by
  simp only [scoreCandidate, candSpoof]
  rw [if_neg (by simp)]
  rw [if_pos (by rw [cos_unit]; norm_num [SIMILARITY_THRESHOLD])]
  simp [mkMatch, candSpoof]

theorem scoreCandidate_eval_low :
    scoreCandidate "q" [1, 0] ("c1", candLow) =
      some { matchId := "c1", score := 0.9985, item := candLow } := by
  simp only [scoreCandidate, candLow]
  rw [if_neg (by simp)]
  rw [if_pos (by rw [cos_low]; norm_num [SIMILARITY_THRESHOLD])]
  simp [mkMatch, candLow, cos_low, round4_low]

theorem scoreCandidate_eval_high :
    scoreCandidate "q" [1, 0] ("c2", candHigh) =
      some { matchId := "c2", score := 0.9985, item := candHigh } := by
  simp only [scoreCandidate, candHigh]
  rw [if_neg (by simp)]
  rw [if_pos (by rw [cos_high]; norm_num [SIMILARITY_THRESHOLD])]
  simp [mkMatch, candHigh, cos_high, round4_high]

/-- The match list of the spoofed store evaluates to the single overridden
entry. -/
theorem findMatches_spoof_eval :
    (findMatches storeSpoof "q").matchList =
      [{ matchId := "spoofed", score := 999, item := candSpoof }] := by
  rw [@findMatches_ok storeSpoof "q" qItemW [1, 0]
    (by simp [storeSpoof, lookupDoc]) (by simp [qItemW]) (by simp)]
  have hopp : oppStatus qItemW.status = "found" := by simp [oppStatus, qItemW]
  rw [hopp]
  have hmc : matchCandidates storeSpoof "q" "found" [1, 0] =
      [{ matchId := "spoofed", score := 999, item := candSpoof }] := by
    rw [matchCandidates, storeSpoof]
    rw [show List.filter (eligibleFilter "found") [("q", qItemW), ("cand", candSpoof)] =
        [("cand", candSpoof)] by simp [eligibleFilter, qItemW, candSpoof]]
    simp [List.filterMap, scoreCandidate_eval_spoof]
  rw [hmc]
  simp [sortByScoreDesc, insertByScoreDesc, MAX_MATCHES]

/-- The match list of the rounding-collision store evaluates to the two
entries in scan order, both with the rounded score `0.9985`. -/
theorem findMatches_cex_eval :
    (findMatches storeCex "q").matchList =
      [{ matchId := "c1", score := 0.9985, item := candLow },
       { matchId := "c2", score := 0.9985, item := candHigh }] := by
  rw [@findMatches_ok storeCex "q" qItemW [1, 0]
    (by simp [storeCex, lookupDoc]) (by simp [qItemW]) (by simp)]
  have hopp : oppStatus qItemW.status = "found" := by simp [oppStatus, qItemW]
  rw [hopp]
  have hmc : matchCandidates storeCex "q" "found" [1, 0] =
      [{ matchId := "c1", score := 0.9985, item := candLow },
       { matchId := "c2", score := 0.9985, item := candHigh }] := by
    rw [matchCandidates, storeCex]
    rw [show List.filter (eligibleFilter "found")
          [("q", qItemW), ("c1", candLow), ("c2", candHigh)] =
        [("c1", candLow), ("c2", candHigh)] by
      simp [eligibleFilter, qItemW, candLow, candHigh]]
    simp [List.filterMap, scoreCandidate_eval_low, scoreCandidate_eval_high]
  rw [hmc]
  rw [show sortByScoreDesc
        [{ matchId := "c1", score := 0.9985, item := candLow },
         { matchId := "c2", score := 0.9985, item := candHigh }] =
      [{ matchId := "c1", score := 0.9985, item := candLow },
       { matchId := "c2", score := 0.9985, item := candHigh }] by
    simp [sortByScoreDesc, insertByScoreDesc]]
  simp [MAX_MATCHES]

/-- Counterexample for C1 as stated: with a provider body containing no
numeric array, `generateEmbedding` returns `null` and the item is still
created (201), but the persisted document's `textEmbedding` is the JS
`null` (`none`) — not the empty array `[]` the claim asserts. -/
theorem createItem_embedding_failure_cex :
    generateEmbedding { text := some "Brown Leather Wallet", imageUri := none }
      respMalformed = none ∧
    createItemPost "u1" fdBase none respMalformed 7 =
      CreateResult.created 201 docWalletNull ∧
    docWalletNull.textEmbedding = none ∧
    docWalletNull.textEmbedding ≠ some [] := by
  refine ⟨rfl, rfl, rfl, ?_⟩
  simp [docWalletNull]

/-- Claim C1 (amended): if embedding generation fails for any provider
reason, `generateEmbedding` returns `null` and `createItemPost` still
succeeds with 201, persisting the document with a null (absent) embedding
vector. -/
theorem createItem_embedding_failure_nonfatal
    (uid : String) (fd : FrontendData) (file : Option FileRefs)
    (resp : Option Json) (t : Nat)
    (hname : fd.name ≠ "") (hstatus : fd.status ≠ "") (hcat : fd.category ≠ "")
    (hfail : ∀ input, generateEmbedding input resp = none) :
    ∃ doc, createItemPost uid fd file resp t = .created 201 doc ∧
      doc.textEmbedding = none := by
  have hval : ¬(fd.name = "" ∨ fd.status = "" ∨ fd.category = "") := by
    push_neg
    exact ⟨hname, hstatus, hcat⟩
  have hit : (if fd.description ≠ "" then fd.description else fd.name) ≠ "" := by
    by_cases hd : fd.description = "" <;> simp [hd, hname]
  simp only [createItemPost, if_neg hval]
  refine ⟨_, rfl, ?_⟩
  simp only [if_pos hit, Option.isSome_some, true_or, if_true, hfail]

/-- Witness for the amended C1 at the concrete malformed response. -/
theorem createItem_embedding_failure_nonfatal_witness :
    ∃ doc, createItemPost "u1" fdBase none respMalformed 7 = .created 201 doc ∧
      doc.textEmbedding = none :=
  createItem_embedding_failure_nonfatal "u1" fdBase none respMalformed 7
    (by simp [fdBase]) (by simp [fdBase]) (by simp [fdBase]) (fun _ => rfl)

/-- Claim C9 (confirmed): the persisted document's trust-sensitive fields
are server-controlled and independent of client input — `isApproved` is
`false`, `isResolved` is `false`, `posterUid` is the authenticated uid, the
timestamp and embedding vector are server-set; two runs whose payloads
differ only in client-supplied values of those fields persist identical
server-controlled values. -/
theorem createItem_server_fields_independent
    (uid : String) (fd fd' : FrontendData) (file : Option FileRefs)
    (resp : Option Json) (t : Nat)
    (hname : fd'.name = fd.name) (hstatus : fd'.status = fd.status)
    (hcat : fd'.category = fd.category) (hdesc : fd'.description = fd.description)
    (_hloc : fd'.lastSeenLocation = fd.lastSeenLocation)
    (_hwc : fd'.whereToCollect = fd.whereToCollect)
    (_himg : fd'.imageTempRef = fd.imageTempRef)
    (hvname : fd.name ≠ "") (hvstatus : fd.status ≠ "") (hvcat : fd.category ≠ "") :
    ∃ doc doc',
      createItemPost uid fd file resp t = .created 201 doc ∧
      createItemPost uid fd' file resp t = .created 201 doc' ∧
      doc.isApproved = false ∧ doc.isResolved = false ∧
      doc.posterUid = uid ∧ doc.dateReported = t ∧
      doc'.isApproved = doc.isApproved ∧ doc'.isResolved = doc.isResolved ∧
      doc'.posterUid = doc.posterUid ∧ doc'.dateReported = doc.dateReported ∧
      doc'.textEmbedding = doc.textEmbedding := by
  have hval : ¬(fd.name = "" ∨ fd.status = "" ∨ fd.category = "") := by
    push_neg
    exact ⟨hvname, hvstatus, hvcat⟩
  have hval' : ¬(fd'.name = "" ∨ fd'.status = "" ∨ fd'.category = "") := by
    push_neg
    exact ⟨by rw [hname]; exact hvname, by rw [hstatus]; exact hvstatus,
      by rw [hcat]; exact hvcat⟩
  simp only [createItemPost, if_neg hval, if_neg hval']
  refine ⟨_, _, rfl, rfl, rfl, rfl, rfl, rfl, rfl, rfl, rfl, rfl, ?_⟩
  simp only [hname, hdesc]

/-- Witness for C9: the forged payload (pre-approved, forged poster uid,
forged vector and timestamp) persists the same server-controlled values as
the clean payload. -/
theorem createItem_server_fields_independent_witness :
    ∃ doc doc',
      createItemPost "u1" fdBase none respMalformed 7 = .created 201 doc ∧
      createItemPost "u1" fdForged none respMalformed 7 = .created 201 doc' ∧
      doc.isApproved = false ∧ doc.isResolved = false ∧
      doc.posterUid = "u1" ∧ doc.dateReported = 7 ∧
      doc'.isApproved = doc.isApproved ∧ doc'.isResolved = doc.isResolved ∧
      doc'.posterUid = doc.posterUid ∧ doc'.dateReported = doc.dateReported ∧
      doc'.textEmbedding = doc.textEmbedding :=
  createItem_server_fields_independent "u1" fdBase fdForged none respMalformed 7
    rfl rfl rfl rfl rfl rfl rfl
    (by simp [fdBase]) (by simp [fdBase]) (by simp [fdBase])

/-- Counterexample for C2 as stated: two candidates whose full-precision
similarities differ (`1295/1297 < 684/685`) but share the 4-decimal rounding
`0.9985`.  The route returns them in scan order — the lower-similarity
candidate `"c1"` first — so the descending sort did NOT compare the
full-precision similarity values (it compares the stored rounded scores, and
the stable sort leaves the tie in scan order). -/
theorem match_sort_not_full_precision_cex :
    ((findMatches storeCex "q").matchList.map fun m => m.matchId) = ["c1", "c2"] ∧
    ((findMatches storeCex "q").matchList.map fun m => m.item.textEmbedding) =
      [some [1295, 72], some [684, 37]] ∧
    cosineSimilarity [1, 0] [1295, 72] < cosineSimilarity [1, 0] [684, 37] := by
  refine ⟨?_, ?_, ?_⟩
  · rw [findMatches_cex_eval]
    rfl
  · rw [findMatches_cex_eval]
    simp [candLow, candHigh]
  · rw [cos_low, cos_high]
    norm_num

/-- Claim C2 (amended): each reported score is the 4-decimal rounding of the
full-precision similarity (presentation), and the threshold test uses the
full-precision value; the descending sort, however, compares the stored
(rounded) scores, not the full-precision values. -/
theorem match_scores_rounded_threshold_full {store : Store} {itemId : String}
    {qi : StoredItem} {qv : List ℝ} (hl : lookupDoc store itemId = some qi)
    (hv : qi.textEmbedding = some qv) (hne : qv ≠ [])
    (hclean : ∀ e ∈ store, e.2.scoreField = none) :
    (∀ m ∈ (findMatches store itemId).matchList,
      ∃ tv, m.item.textEmbedding = some tv ∧
        m.score = round4 (cosineSimilarity qv tv) ∧
        SIMILARITY_THRESHOLD ≤ cosineSimilarity qv tv) ∧
    (findMatches store itemId).matchList.Pairwise ScoreDesc := by
  refine ⟨?_, ?_⟩
  · intro m hm
    rw [findMatches_ok hl hv hne] at hm
    obtain ⟨docId, it, tv, hmem, hst, hap, hre, hid, htv, hne', hth, rfl⟩ :=
      mem_matchCandidates.mp (mem_topMatches hm)
    have hsf : it.scoreField = none := hclean (docId, it) hmem
    exact ⟨tv, by simpa [mkMatch] using htv, by simp [mkMatch, hsf], hth⟩
  · rw [findMatches_ok hl hv hne]
    exact List.Pairwise.sublist (List.take_sublist _ _) (sortByScoreDesc_sorted _)

/-- Witness for the amended C2 on the concrete rounding-collision store:
both reported scores are the 4-decimal roundings of the full-precision
similarities, which themselves meet the threshold. -/
theorem match_scores_rounded_threshold_full_witness :
    (∀ m ∈ (findMatches storeCex "q").matchList,
      ∃ tv, m.item.textEmbedding = some tv ∧
        m.score = round4 (cosineSimilarity [1, 0] tv) ∧
        SIMILARITY_THRESHOLD ≤ cosineSimilarity [1, 0] tv) ∧
    (findMatches storeCex "q").matchList.Pairwise ScoreDesc :=
  @match_scores_rounded_threshold_full storeCex "q" qItemW [1, 0]
    (by simp [storeCex, lookupDoc]) (by simp [qItemW]) (by simp)
    (by rintro e he
        simp only [storeCex, List.mem_cons, List.mem_singleton,
          List.not_mem_nil, or_false] at he
        rcases he with rfl | rfl | rfl
        · rfl
        · rfl
        · rfl)

/-- Claim C10 (confirmed): the match object is built as
`{id, score, ...candidateFields}` with the stored fields spread last, so a
stored document carrying fields named `score` and `id` overrides the
computed values: the returned match reports score `999` and id `"spoofed"`
although the computed similarity is `1`; and `createItemPost` lets a client
payload persist exactly such fields. -/
theorem spread_overrides_computed_fields :
    ((findMatches storeSpoof "q").matchList.map fun m => (m.matchId, m.score)) =
      [("spoofed", (999 : ℝ))] ∧
    cosineSimilarity [1, 0] [1, 0] = 1 ∧
    (999 : ℝ) ≠ round4 (cosineSimilarity [1, 0] [1, 0]) ∧
    (∃ doc, createItemPost "u1" fdSpoof none respMalformed 7 = .created 201 doc ∧
      doc.scoreField = some 999 ∧ doc.idField = some "spoofed") := by
  refine ⟨?_, cos_unit, ?_, ⟨_, rfl, rfl, rfl⟩⟩
  · rw [findMatches_spoof_eval]
    rfl
  · rw [cos_unit, round4_one]
    norm_num

end LostFound
